import Mathlib

/-!
Verification of the deterministic text-classification engine of the
smart-task-backend repository (`backend/logic.py`, function `analyze_task`).
The engine is embedded shallowly: strings are Lean `String`s processed as
`List Char`, the Python substring test `w in text_lower` becomes
`containsSub`, `str.split()` becomes `splitWs`, and the people-extraction
regex `(?:with|by|assign to|contact|ask)\s+([a-zA-Z]+)` (IGNORECASE) is
modelled by an explicit left-to-right non-overlapping scan with ordered
alternation (`findMatches`).  ASCII inputs are assumed: `Char.toLower` /
`Char.toUpper` model Python case mapping, `Char.isWhitespace` models `\s`,
and `Char.isAlpha` models `[a-zA-Z]` (in Lean it is exactly the two ASCII
letter ranges).
-/

namespace SmartTaskBackend

/-- Boolean test that `p` is a prefix of `s` (character lists). -/
def matchHead : List Char → List Char → Bool
  | [], _ => true
  | _ :: _, [] => false
  | p :: ps, c :: cs => (p == c) && matchHead ps cs

/-- Python's substring containment `pat in s` on character lists. -/
def containsSub (pat : List Char) : List Char → Bool
  | [] => pat.isEmpty
  | c :: rest => matchHead pat (c :: rest) || containsSub pat rest

/-- Python's `any(w in s for w in ks)`. -/
def containsAny (ks : List (List Char)) (s : List Char) : Bool :=
  ks.any fun k => containsSub k s

/-- Python's `str.lower()` on a character list (ASCII model). -/
def lowerCL (l : List Char) : List Char := l.map Char.toLower

/-- Helper for `splitWs`: `cur` is the reversed current word. -/
def splitWsAux : List Char → List Char → List (List Char)
  | cur, [] => if cur.isEmpty then [] else [cur.reverse]
  | cur, c :: rest =>
    if c.isWhitespace then
      if cur.isEmpty then splitWsAux [] rest
      else cur.reverse :: splitWsAux [] rest
    else splitWsAux (c :: cur) rest

/-- Python's `str.split()` (no argument): split on runs of whitespace,
dropping empty words. -/
def splitWs (l : List Char) : List (List Char) := splitWsAux [] l

/-- Safety keyword set of `backend/logic.py` (checked first). -/
def safetyKeywords : List (List Char) :=
  ["safety", "hazard", "inspection", "compliance", "mask", "ppe",
   "checklist", "danger", "incident", "report"].map String.data

/-- Technical keyword set (checked second). -/
def technicalKeywords : List (List Char) :=
  ["bug", "fix", "error", "code", "install", "repair", "server", "app",
   "crash", "technician", "resources", "database", "api", "deploy"].map String.data

/-- Finance keyword set (checked third). -/
def financeKeywords : List (List Char) :=
  ["pay", "invoice", "bill", "budget", "cost", "expense", "price", "$",
   "money", "audit", "account"].map String.data

/-- Scheduling keyword set (checked last). -/
def schedulingKeywords : List (List Char) :=
  ["meeting", "schedule", "call", "zoom", "teams", "appointment",
   "deadline", "calendar", "invite", "event"].map String.data

/-- High-priority keyword set. -/
def highKeywords : List (List Char) :=
  ["urgent", "asap", "immediately", "today", "now", "critical",
   "emergency", "deadline", "fail", "high"].map String.data

/-- Medium-priority keyword set (note the multi-word entry "this week"). -/
def mediumKeywords : List (List Char) :=
  ["soon", "tomorrow", "this week", "important", "review", "check",
   "update", "medium"].map String.data

/-- Category waterfall of `backend/logic.py`: safety, then technical, then
finance, then scheduling; `general` if nothing matches. -/
def categoryOf (text_lower : List Char) : String :=
  if containsAny safetyKeywords text_lower then "safety"
  else if containsAny technicalKeywords text_lower then "technical"
  else if containsAny financeKeywords text_lower then "finance"
  else if containsAny schedulingKeywords text_lower then "scheduling"
  else "general"

/-- Priority detection: high tier checked before medium tier. -/
def priorityOf (text_lower : List Char) : String :=
  if containsAny highKeywords text_lower then "high"
  else if containsAny mediumKeywords text_lower then "medium"
  else "low"

/-- Case-insensitive literal match of (lower-cased) `pat` against the head
of `s`, returning the remaining suffix on success.  Models a regex literal
under `re.IGNORECASE`. -/
def stripCI : List Char → List Char → Option (List Char)
  | [], s => some s
  | _ :: _, [] => none
  | p :: ps, c :: cs => if c.toLower == p then stripCI ps cs else none

/-- Models the regex tail `\s+([a-zA-Z]+)`: at least one whitespace
character, then a maximal nonempty run of ASCII letters (the capture).
Returns the capture and the suffix after it. -/
def grabTail (s : List Char) : Option (List Char × List Char) :=
  if (s.takeWhile Char.isWhitespace).isEmpty then none
  else if ((s.dropWhile Char.isWhitespace).takeWhile Char.isAlpha).isEmpty then none
  else some ((s.dropWhile Char.isWhitespace).takeWhile Char.isAlpha,
             (s.dropWhile Char.isWhitespace).dropWhile Char.isAlpha)

/-- Trigger alternatives of the people regex, in regex alternation order.
Bare "call" and "meet" are deliberately absent (the FIX comment in the
source). -/
def peopleTriggers : List (List Char) :=
  ["with", "by", "assign to", "contact", "ask"].map String.data

/-- Try the trigger alternatives in order at the current position; a
trigger whose literal matches but whose tail fails is backtracked, as the
regex engine does. -/
def tryTriggers : List (List Char) → List Char → Option (List Char × List Char)
  | [], _ => none
  | t :: ts, s =>
    match stripCI t s with
    | some rest =>
      match grabTail rest with
      | some r => some r
      | none => tryTriggers ts s
    | none => tryTriggers ts s

/-- Left-to-right non-overlapping scan of `re.findall`: attempt a match at
each position, emit the capture and resume after the match, otherwise
advance one character.  The fuel argument only bounds recursion; every
successful match consumes at least four characters, so fuel equal to the
text length never runs out. -/
def findMatches : Nat → List Char → List (List Char)
  | 0, _ => []
  | _ + 1, [] => []
  | fuel + 1, c :: rest =>
    match tryTriggers peopleTriggers (c :: rest) with
    | some (cap, after) => cap :: findMatches fuel after
    | none => findMatches fuel rest

/-- `people_pattern.findall(text_input)` of the source. -/
def peopleMatches (s : List Char) : List (List Char) := findMatches s.length s

/-- Date keyword vocabulary of the source. -/
def dateKeywords : List (List Char) :=
  ["today", "tomorrow", "monday", "tuesday", "wednesday", "thursday",
   "friday", "saturday", "sunday"].map String.data

/-- Stop words used to filter people captures. -/
def capStopwords : List (List Char) :=
  ["the", "a", "an", "to", "for"].map String.data

/-- Filter of the source's cleaning loop: keep a capture unless its
lower-casing is a date keyword or a stop word. -/
def keepCapture (m : List Char) : Bool :=
  !(dateKeywords.contains (lowerCL m)) && !(capStopwords.contains (lowerCL m))

/-- Python's `str.title()` restricted to the purely-alphabetic captures the
regex produces: first character upper-cased, remaining characters
lower-cased. -/
def pyTitle : List Char → List Char
  | [] => []
  | c :: cs => c.toUpper :: cs.map Char.toLower

/-- The source's cleaning loop: append `match.title()` for each capture
that passes the filter, preserving order. -/
def cleanPeople : List (List Char) → List String
  | [] => []
  | m :: ms =>
    if keepCapture m then String.mk (pyTitle m) :: cleanPeople ms
    else cleanPeople ms

/-- Date extraction: whitespace-split the lower-cased text and keep the
words that exactly equal a date keyword, in order. -/
def extractDates (text_lower : List Char) : List String :=
  ((splitWs text_lower).filter fun w => dateKeywords.contains w).map String.mk

/-- The `actions_map` dictionary with its `.get(category, ["Review task"])`
default. -/
def actionsMap (category : String) : List String :=
  if category = "scheduling" then
    ["Block calendar", "Send invite", "Prepare agenda", "Set reminder"]
  else if category = "finance" then
    ["Check budget", "Get approval", "Generate invoice", "Update records"]
  else if category = "technical" then
    ["Diagnose issue", "Check resources", "Assign technician", "Document fix"]
  else if category = "safety" then
    ["Conduct inspection", "File report", "Notify supervisor", "Update checklist"]
  else if category = "general" then
    ["Review task", "Set due date", "Prioritize"]
  else ["Review task"]

/-- The `extracted_entities` dictionary. -/
structure Entities where
  dates : List String
  people : List String
deriving DecidableEq, Repr

/-- Return value of `analyze_task`: the tuple
`(category, priority, extracted_entities, suggested_actions)`. -/
structure ClassificationResult where
  category : String
  priority : String
  extracted_entities : Entities
  suggested_actions : List String
deriving DecidableEq, Repr

/-- Shallow embedding of `analyze_task` from `backend/logic.py`. -/
def analyze_task (text_input : String) : ClassificationResult :=
  if text_input = "" then
    { category := "general", priority := "low",
      extracted_entities := { dates := [], people := [] },
      suggested_actions := ["Review task"] }
  else
    let text_lower := lowerCL text_input.data
    { category := categoryOf text_lower
      priority := priorityOf text_lower
      extracted_entities :=
        { dates := extractDates text_lower
          people := cleanPeople (peopleMatches text_input.data) }
      suggested_actions := actionsMap (categoryOf text_lower) }

/-! Helper lemmas. -/

/-- Unfolding of `analyze_task` on nonempty input. -/
lemma analyze_task_ne (s : String) (h : s ≠ "") :
    analyze_task s =
      { category := categoryOf (lowerCL s.data)
        priority := priorityOf (lowerCL s.data)
        extracted_entities :=
          { dates := extractDates (lowerCL s.data)
            people := cleanPeople (peopleMatches s.data) }
        suggested_actions := actionsMap (categoryOf (lowerCL s.data)) } := by
  unfold analyze_task
  rw [if_neg h]

/-- A single matching keyword makes `containsAny` true. -/
lemma containsAny_of_mem {k : List Char} {ks : List (List Char)} {s : List Char}
    (hk : k ∈ ks) (h : containsSub k s = true) : containsAny ks s = true := by
  unfold containsAny
  exact List.any_eq_true.mpr ⟨k, hk, h⟩

/-- A safety keyword match short-circuits the waterfall. -/
lemma categoryOf_eq_safety {tl : List Char}
    (h : containsAny safetyKeywords tl = true) : categoryOf tl = "safety" := by
  unfold categoryOf
  rw [if_pos h]

/-- A high keyword match short-circuits priority detection. -/
lemma priorityOf_eq_high {tl : List Char}
    (h : containsAny highKeywords tl = true) : priorityOf tl = "high" := by
  unfold priorityOf
  rw [if_pos h]

/-- With no high keyword and some medium keyword, the priority is medium. -/
lemma priorityOf_eq_medium {tl : List Char}
    (h1 : containsAny highKeywords tl = false)
    (h2 : containsAny mediumKeywords tl = true) : priorityOf tl = "medium" := by
  unfold priorityOf
  rw [h1, h2]
  simp

/-- The waterfall only ever produces the five category values. -/
lemma categoryOf_cases (tl : List Char) :
    categoryOf tl = "general" ∨ categoryOf tl = "safety" ∨
      categoryOf tl = "technical" ∨ categoryOf tl = "finance" ∨
      categoryOf tl = "scheduling" := by
  unfold categoryOf
  split_ifs <;> decide

/-- Priority detection only ever produces the three priority values. -/
lemma priorityOf_cases (tl : List Char) :
    priorityOf tl = "low" ∨ priorityOf tl = "medium" ∨ priorityOf tl = "high" := by
  unfold priorityOf
  split_ifs <;> decide

/-- A successful `grabTail` returns a nonempty capture. -/
lemma grabTail_cap_ne {s cap after : List Char}
    (h : grabTail s = some (cap, after)) : cap ≠ [] := by
  unfold grabTail at h
  split_ifs at h with h1 h2
  injection h with h3
  injection h3 with h4 h5
  intro hc
  apply h2
  rw [h4, hc]
  rfl

/-- A successful `tryTriggers` returns a nonempty capture. -/
lemma tryTriggers_cap_ne {ts : List (List Char)} :
    ∀ {s cap after : List Char}, tryTriggers ts s = some (cap, after) → cap ≠ [] := by
  induction ts with
  | nil => intro s cap after h; simp [tryTriggers] at h
  | cons t ts ih =>
    intro s cap after h
    unfold tryTriggers at h
    split at h
    · rename_i rest _
      split at h
      · rename_i r hgrab
        injection h with h1
        rw [h1] at hgrab
        exact grabTail_cap_ne hgrab
      · exact ih h
    · exact ih h

/-- Every emitted capture of the findall scan is nonempty. -/
lemma findMatches_mem_ne :
    ∀ (n : Nat) (l m : List Char), m ∈ findMatches n l → m ≠ [] := by
  intro n
  induction n with
  | zero => intro l m h; simp [findMatches] at h
  | succ k ih =>
    intro l m h
    cases l with
    | nil => simp [findMatches] at h
    | cons c rest =>
      unfold findMatches at h
      split at h
      · rename_i cap after htry
        rcases List.mem_cons.mp h with rfl | h2
        · exact tryTriggers_cap_ne htry
        · exact ih after m h2
      · exact ih rest m h

/-- Every element of the cleaned people list is the title-casing of some
capture that passed the filter. -/
lemma mem_cleanPeople {p : String} :
    ∀ {ms : List (List Char)}, p ∈ cleanPeople ms →
      ∃ m ∈ ms, keepCapture m = true ∧ p = String.mk (pyTitle m) := by
  intro ms
  induction ms with
  | nil => intro h; simp [cleanPeople] at h
  | cons m ms ih =>
    intro h
    unfold cleanPeople at h
    by_cases hk : keepCapture m = true
    · rw [if_pos hk] at h
      rcases List.mem_cons.mp h with rfl | h2
      · exact ⟨m, List.mem_cons_self m ms, hk, rfl⟩
      · obtain ⟨m', hm', hk', hp'⟩ := ih h2
        exact ⟨m', List.mem_cons_of_mem m hm', hk', hp'⟩
    · rw [if_neg hk] at h
      obtain ⟨m', hm', hk', hp'⟩ := ih h
      exact ⟨m', List.mem_cons_of_mem m hm', hk', hp'⟩

/-! Claim theorems. -/

/-- C1 (counterexample): on the empty string the code's early return yields
the one-element actions list `["Review task"]`, not the three-element
general default the claim states. -/
theorem C1_counterexample :
    (analyze_task "").suggested_actions = ["Review task"] ∧
      ¬ (analyze_task "").suggested_actions =
          ["Review task", "Set due date", "Prioritize"] := by decide

/-- C1 (amended): for the empty string input, `analyze_task` returns
category "general", priority "low", empty people and dates, and the
actions list `["Review task"]`. -/
theorem C1_empty_default :
    analyze_task "" =
      { category := "general", priority := "low",
        extracted_entities := { dates := [], people := [] },
        suggested_actions := ["Review task"] } := by decide

/-- C2: category detection is a fixed-order waterfall with safety checked
first, so any input matching a safety keyword is classified "safety"; in
particular "Safety inspection call today" yields "safety" even though the
scheduling keyword "call" also occurs. -/
theorem C2_safety_first :
    (∀ s : String, containsAny safetyKeywords (lowerCL s.data) = true →
        (analyze_task s).category = "safety") ∧
      (analyze_task "Safety inspection call today").category = "safety" ∧
      containsAny schedulingKeywords
        (lowerCL ("Safety inspection call today").data) = true := by
  refine ⟨?_, by decide, by decide⟩
  intro s h
  by_cases hs : s = ""
  · subst hs
    exact absurd h (by decide)
  · rw [analyze_task_ne s hs]
    exact categoryOf_eq_safety h

/-- Witness for C2 at the concrete input "hazard report". -/
theorem C2_safety_first_witness :
    containsAny safetyKeywords (lowerCL ("hazard report").data) = true ∧
      (analyze_task "hazard report").category = "safety" :=
  ⟨by decide, C2_safety_first.1 "hazard report" (by decide)⟩

/-- C3 (counterexample): on the empty string the category is "general" but
the returned actions are not the table entry for "general", so the
claimed for-every-input table correspondence fails. -/
theorem C3_counterexample :
    (analyze_task "").category = "general" ∧
      actionsMap "general" = ["Review task", "Set due date", "Prioritize"] ∧
      ¬ (analyze_task "").suggested_actions =
          actionsMap (analyze_task "").category := by decide

/-- C3 (amended): for every nonempty input the returned actions list is
exactly the fixed table entry for the returned category; the table maps the
five categories to the listed action lists, and every string is mapped to a
non-empty actions list. -/
theorem C3_actions_table :
    (∀ s : String, s ≠ "" →
        (analyze_task s).suggested_actions =
          actionsMap (analyze_task s).category) ∧
      actionsMap "scheduling" =
        ["Block calendar", "Send invite", "Prepare agenda", "Set reminder"] ∧
      actionsMap "finance" =
        ["Check budget", "Get approval", "Generate invoice", "Update records"] ∧
      actionsMap "technical" =
        ["Diagnose issue", "Check resources", "Assign technician", "Document fix"] ∧
      actionsMap "safety" =
        ["Conduct inspection", "File report", "Notify supervisor", "Update checklist"] ∧
      actionsMap "general" = ["Review task", "Set due date", "Prioritize"] ∧
      (∀ c : String, actionsMap c ≠ []) := by
  refine ⟨?_, by decide, by decide, by decide, by decide, by decide, ?_⟩
  · intro s hs
    rw [analyze_task_ne s hs]
  · intro c
    unfold actionsMap
    split_ifs <;> decide

/-- Witness for C3 at the concrete input "pay the bill". -/
theorem C3_actions_table_witness :
    "pay the bill" ≠ "" ∧
      (analyze_task "pay the bill").suggested_actions =
        actionsMap (analyze_task "pay the bill").category :=
  ⟨by decide, C3_actions_table.1 "pay the bill" (by decide)⟩

/-- C4: the high tier is checked before the medium tier, so any input
matching both a high and a medium keyword gets priority "high"; in
particular "urgent review soon" yields "high". -/
theorem C4_high_before_medium :
    (∀ s : String, containsAny highKeywords (lowerCL s.data) = true →
        containsAny mediumKeywords (lowerCL s.data) = true →
        (analyze_task s).priority = "high") ∧
      (analyze_task "urgent review soon").priority = "high" := by
  refine ⟨?_, by decide⟩
  intro s h1 _
  by_cases hs : s = ""
  · subst hs
    exact absurd h1 (by decide)
  · rw [analyze_task_ne s hs]
    exact priorityOf_eq_high h1

/-- Witness for C4 at the concrete input "urgent soon". -/
theorem C4_high_before_medium_witness :
    containsAny highKeywords (lowerCL ("urgent soon").data) = true ∧
      containsAny mediumKeywords (lowerCL ("urgent soon").data) = true ∧
      (analyze_task "urgent soon").priority = "high" :=
  ⟨by decide, by decide, C4_high_before_medium.1 "urgent soon" (by decide) (by decide)⟩

/-- C5 (counterexample): the code's medium keyword is the two-word phrase
"this week", not "week": the input "next week" contains "week" and no
high keyword, yet its priority is "low", refuting the claim. -/
theorem C5_counterexample :
    containsSub ("week").data (lowerCL ("next week").data) = true ∧
      containsAny highKeywords (lowerCL ("next week").data) = false ∧
      (analyze_task "next week").priority = "low" ∧
      ¬ (analyze_task "next week").priority = "medium" := by decide

/-- C5 (amended): for every input whose lower-cased text contains
"this week" as a substring and none of the high-priority keywords, the
priority is "medium". -/
theorem C5_this_week_medium :
    ∀ s : String, containsSub ("this week").data (lowerCL s.data) = true →
      containsAny highKeywords (lowerCL s.data) = false →
      (analyze_task s).priority = "medium" := by
  intro s h1 h2
  by_cases hs : s = ""
  · subst hs
    exact absurd h1 (by decide)
  · rw [analyze_task_ne s hs]
    exact priorityOf_eq_medium h2 (containsAny_of_mem (by decide) h1)

/-- Witness for C5 at the concrete input "plan this week". -/
theorem C5_this_week_medium_witness :
    containsSub ("this week").data (lowerCL ("plan this week").data) = true ∧
      containsAny highKeywords (lowerCL ("plan this week").data) = false ∧
      (analyze_task "plan this week").priority = "medium" :=
  ⟨by decide, by decide, C5_this_week_medium "plan this week" (by decide) (by decide)⟩

/-- C6: with bare "call" and "meet" excluded from the trigger set,
"call by Raj" extracts exactly the person "Raj" and not "By". -/
theorem C6_call_by_raj :
    (analyze_task "call by Raj").extracted_entities.people = ["Raj"] ∧
      ¬ (analyze_task "call by Raj").extracted_entities.people = ["By"] := by decide

/-- C7: "assign to the team tomorrow" yields no people (the capture "the"
is dropped as a stopword) and dates exactly ["tomorrow"]; date matching is
exact-token, so the punctuation-adjacent "tomorrow." is not collected. -/
theorem C7_stopword_dates :
    (analyze_task "assign to the team tomorrow").extracted_entities.people = [] ∧
      (analyze_task "assign to the team tomorrow").extracted_entities.dates =
        ["tomorrow"] ∧
      (analyze_task "assign to the team tomorrow.").extracted_entities.dates = [] := by
    decide

/-- C8 (counterexample): the code applies Python `str.title()`, which
lower-cases the tail of the capture, so "with McDonald" yields the person
"Mcdonald" and not "McDonald" as the claim states. -/
theorem C8_counterexample :
    (analyze_task "with McDonald").extracted_entities.people = ["Mcdonald"] ∧
      ¬ (analyze_task "with McDonald").extracted_entities.people = ["McDonald"] := by
    decide

/-- C8 (amended): every string appended to the people list is the
title-casing of a surviving capture: its first character upper-cased and
its remaining characters lower-cased (not preserved as they appeared). -/
theorem C8_title_case :
    ∀ (s p : String), p ∈ (analyze_task s).extracted_entities.people →
      ∃ (c : Char) (cs : List Char), (c :: cs) ∈ peopleMatches s.data ∧
        keepCapture (c :: cs) = true ∧
        p = String.mk (c.toUpper :: cs.map Char.toLower) := by
  intro s p hp
  by_cases hs : s = ""
  · subst hs
    simp [analyze_task] at hp
  · rw [analyze_task_ne s hs] at hp
    obtain ⟨m, hm, hk, hpt⟩ := mem_cleanPeople hp
    cases m with
    | nil => exact absurd rfl (findMatches_mem_ne _ _ [] hm)
    | cons c cs => exact ⟨c, cs, hm, hk, hpt⟩

/-- Witness for C8 at the concrete input "call by Raj" and person "Raj". -/
theorem C8_title_case_witness :
    "Raj" ∈ (analyze_task "call by Raj").extracted_entities.people ∧
      ∃ (c : Char) (cs : List Char),
        (c :: cs) ∈ peopleMatches ("call by Raj").data ∧
        keepCapture (c :: cs) = true ∧
        "Raj" = String.mk (c.toUpper :: cs.map Char.toLower) :=
  ⟨by decide, C8_title_case "call by Raj" "Raj" (by decide)⟩

/-- C9: `analyze_task` is total by construction and always returns one of
the five category values and one of the three priority values. -/
theorem C9_total_enum :
    ∀ s : String,
      ((analyze_task s).category = "general" ∨
        (analyze_task s).category = "safety" ∨
        (analyze_task s).category = "technical" ∨
        (analyze_task s).category = "finance" ∨
        (analyze_task s).category = "scheduling") ∧
      ((analyze_task s).priority = "low" ∨
        (analyze_task s).priority = "medium" ∨
        (analyze_task s).priority = "high") := by
  intro s
  by_cases hs : s = ""
  · subst hs
    exact ⟨by decide, by decide⟩
  · rw [analyze_task_ne s hs]
    exact ⟨categoryOf_cases _, priorityOf_cases _⟩

/-- C10: trigger matching is not word-boundary delimited: in
"standby John" the trigger "by" occurs only inside the longer word
"standby" (the whitespace-split words are "standby" and "john", neither a
trigger), yet "John" is still captured as a person. -/
theorem C10_substring_trigger :
    splitWs (lowerCL ("standby John").data) = [("standby").data, ("john").data] ∧
      (∀ t ∈ peopleTriggers, ¬ t ∈ splitWs (lowerCL ("standby John").data)) ∧
      (analyze_task "standby John").extracted_entities.people = ["John"] := by decide

end SmartTaskBackend
